import Mathlib

/-!
Shallow embedding of the BlenderMCPTools "structured thinking" core:
the verification-chain manager (src/tools/verification-thinking),
the template/session manager (src/tools/template-thinking),
the input schema validator, and the template recommender's context
analysis.  JavaScript `Date` values are modelled as abstract `Nat`
timestamps supplied by the caller; `Map` objects are modelled as
association lists; in-place mutation of an element found by `find`
is modelled by rewriting the first matching element of the list.
Numbers that carry fractional weights are modelled as `ℚ`.
-/

/-- Rewrites the first element satisfying `p` using `f`; models JS code
that obtains an element via `find` and mutates it in place. -/
def updateFirst (p : α → Bool) (f : α → α) : List α → List α
  | [] => []
  | x :: xs => if p x then f x :: xs else x :: updateFirst p f xs

theorem updateFirst_nil (p : α → Bool) (f : α → α) : updateFirst p f [] = [] := rfl

theorem updateFirst_cons (p : α → Bool) (f : α → α) (x : α) (xs : List α) :
    updateFirst p f (x :: xs) = if p x then f x :: xs else x :: updateFirst p f xs := rfl

theorem find?_updateFirst (p : α → Bool) (f : α → α) (l : List α) (s : α)
    (hfind : l.find? p = some s) (hp : p (f s) = true) :
    (updateFirst p f l).find? p = some (f s) := by
  induction l with
  | nil => simp at hfind
  | cons x xs ih =>
    by_cases hx : p x
    · simp [List.find?, hx, updateFirst_cons] at hfind ⊢
      subst hfind
      simp [List.find?, hp]
    · simp [List.find?, hx, updateFirst_cons] at hfind ⊢
      simp [List.find?, hx, ih hfind]

theorem updateFirst_map_of_preserve (p : α → Bool) (f : α → α) (g : α → β)
    (hg : ∀ a, g (f a) = g a) (l : List α) :
    (updateFirst p f l).map g = l.map g := by
  induction l with
  | nil => rfl
  | cons x xs ih =>
    by_cases hx : p x
    · simp [updateFirst_cons, hx, hg]
    · simp [updateFirst_cons, hx, ih]

/-! ## Verification thinking: data model (src/tools/verification-thinking/types.ts) -/

inductive VerificationStatus where
  | pending
  | in_progress
  | verified
  | failed
  | skipped
deriving DecidableEq, Repr

inductive VerificationType where
  | logical
  | factual
  | code
  | mathematical
  | consistency
  | completeness
  | custom
deriving DecidableEq, Repr

structure VerificationStep where
  id : String
  type : VerificationType
  claim : String
  verification : String
  status : VerificationStatus
  confidence : ℚ
  evidence : Option String
  counterExample : Option String
deriving DecidableEq, Repr

structure VerificationChain where
  id : String
  subject : String
  steps : List VerificationStep
  overallStatus : VerificationStatus
  startTime : Nat
  endTime : Option Nat
  projectStructure : Option String
deriving DecidableEq, Repr

/-! ## VerificationManager (src/tools/verification-thinking/verificationManager.ts) -/

structure VerificationManagerState where
  chains : List (String × VerificationChain)
  currentChainId : Option String
deriving DecidableEq, Repr

def VerificationManagerState.getChain (st : VerificationManagerState)
    (chainId : String) : Option VerificationChain :=
  (st.chains.find? (fun kv => kv.1 == chainId)).map (·.2)

/-- Replaces the stored chain under `chainId`; models in-place mutation of
the chain object held in the manager's `Map`. -/
def VerificationManagerState.setChain (st : VerificationManagerState)
    (chainId : String) (c : VerificationChain) : VerificationManagerState :=
  { st with chains := updateFirst (fun kv => kv.1 == chainId) (fun kv => (kv.1, c)) st.chains }

/-- `updateChainStatus` of verificationManager.ts lines 118-156, acting on the
chain resolved from the id.  `now` models `new Date()`. -/
def updateChainStatus (now : Nat) (chain : VerificationChain) : VerificationChain :=
  if chain.steps.length = 0 then
    { chain with overallStatus := .pending }
  else if chain.steps.any (fun s => s.status == .pending) then
    { chain with overallStatus := .in_progress }
  else if chain.steps.any (fun s => s.status == .failed) then
    { chain with overallStatus := .failed }
  else if chain.steps.all (fun s => s.status == .verified) then
    { chain with
      overallStatus := .verified
      endTime := match chain.endTime with
        | none => some now
        | some t => some t }
  else
    { chain with overallStatus := .in_progress }

/-- `createChain` of verificationManager.ts lines 20-36.  The generated id is
passed in explicitly since the source derives it from wall-clock time and
`Math.random`. -/
def VerificationManagerState.createChain (st : VerificationManagerState)
    (chainId : String) (now : Nat) (subject : String)
    (projectStructure : Option String) :
    VerificationChain × VerificationManagerState :=
  let chain : VerificationChain :=
    { id := chainId
      subject := subject
      steps := []
      overallStatus := .pending
      startTime := now
      endTime := none
      projectStructure := projectStructure }
  (chain, { st with
    chains := st.chains ++ [(chainId, chain)]
    currentChainId := some chainId })

/-- `addVerificationStep` of verificationManager.ts lines 50-80: appends a step
built from the arguments, then recomputes the chain status. -/
def VerificationManagerState.addVerificationStep (st : VerificationManagerState)
    (stepId : String) (now : Nat) (chainId : String) (type : VerificationType)
    (claim : String) (verification : String) (status : VerificationStatus)
    (confidence : ℚ) (evidence : Option String) (counterExample : Option String) :
    Except String (VerificationStep × VerificationManagerState) :=
  match st.getChain chainId with
  | none => .error ("Chain " ++ chainId ++ " not found")
  | some chain =>
    let step : VerificationStep :=
      { id := stepId
        type := type
        claim := claim
        verification := verification
        status := status
        confidence := confidence
        evidence := evidence
        counterExample := counterExample }
    let chain1 := { chain with steps := chain.steps ++ [step] }
    let chain2 := updateChainStatus now chain1
    .ok (step, st.setChain chainId chain2)

/-- `updateVerificationStep` of verificationManager.ts lines 82-116: always
overwrites verification/status/confidence; overwrites evidence and
counterExample only when the optional argument is present. -/
def VerificationManagerState.updateVerificationStep (st : VerificationManagerState)
    (now : Nat) (chainId : String) (stepId : String) (verification : String)
    (status : VerificationStatus) (confidence : ℚ) (evidence : Option String)
    (counterExample : Option String) :
    Except String (VerificationStep × VerificationManagerState) :=
  match st.getChain chainId with
  | none => .error ("Chain " ++ chainId ++ " not found")
  | some chain =>
    match chain.steps.find? (fun s => s.id == stepId) with
    | none => .error ("Step " ++ stepId ++ " not found in chain " ++ chainId)
    | some step =>
      let step1 : VerificationStep :=
        { step with
          verification := verification
          status := status
          confidence := confidence
          evidence := match evidence with
            | none => step.evidence
            | some e => some e
          counterExample := match counterExample with
            | none => step.counterExample
            | some c => some c }
      let chain1 := { chain with
        steps := updateFirst (fun s => s.id == stepId)
          (fun s =>
            { s with
              verification := verification
              status := status
              confidence := confidence
              evidence := match evidence with
                | none => s.evidence
                | some e => some e
              counterExample := match counterExample with
                | none => s.counterExample
                | some c => some c })
          chain.steps }
      let chain2 := updateChainStatus now chain1
      .ok (step1, st.setChain chainId chain2)

/-! ## Spec-side status derivation (for the refinement claim about
`updateChainStatus`): written from the specification's words, to be compared
with the source translation above. -/

/-- Spec wording: no steps gives pending; any pending step gives in_progress;
otherwise any failed step gives failed; otherwise all steps verified gives
verified; any other mixture gives in_progress. -/
def specDerivedStatus (statuses : List VerificationStatus) : VerificationStatus :=
  if statuses = [] then .pending
  else if VerificationStatus.pending ∈ statuses then .in_progress
  else if VerificationStatus.failed ∈ statuses then .failed
  else if ∀ s ∈ statuses, s = VerificationStatus.verified then .verified
  else .in_progress

theorem specDerivedStatus_perm {l₁ l₂ : List VerificationStatus} (h : l₁.Perm l₂) :
    specDerivedStatus l₁ = specDerivedStatus l₂ := by
  unfold specDerivedStatus
  have hnil : (l₁ = []) ↔ (l₂ = []) := by
    constructor <;> intro hx <;> subst hx
    · exact (List.Perm.nil_eq h).symm
    · exact List.Perm.eq_nil h
  have hmem : ∀ s : VerificationStatus, s ∈ l₁ ↔ s ∈ l₂ := fun s => h.mem_iff
  have hall : (∀ s ∈ l₁, s = VerificationStatus.verified) ↔
      (∀ s ∈ l₂, s = VerificationStatus.verified) := by
    constructor <;> intro ha s hs
    · exact ha s ((hmem s).mpr hs)
    · exact ha s ((hmem s).mp hs)
  by_cases h1 : l₁ = []
  · rw [if_pos h1, if_pos (hnil.mp h1)]
  · rw [if_neg h1, if_neg (fun hx => h1 (hnil.mpr hx))]
    by_cases h2 : VerificationStatus.pending ∈ l₁
    · rw [if_pos h2, if_pos ((hmem _).mp h2)]
    · rw [if_neg h2, if_neg (fun hx => h2 ((hmem _).mpr hx))]
      by_cases h3 : VerificationStatus.failed ∈ l₁
      · rw [if_pos h3, if_pos ((hmem _).mp h3)]
      · rw [if_neg h3, if_neg (fun hx => h3 ((hmem _).mpr hx))]
        by_cases h4 : ∀ s ∈ l₁, s = VerificationStatus.verified
        · rw [if_pos h4, if_pos (hall.mp h4)]
        · rw [if_neg h4, if_neg (fun hx => h4 (hall.mpr hx))]

theorem map_status_nil_iff (chain : VerificationChain) :
    chain.steps.map (·.status) = [] ↔ chain.steps.length = 0 := by
  constructor
  · intro hx
    simpa using congrArg List.length hx
  · intro hx
    simp [List.length_eq_zero.mp hx]

theorem mem_map_status_iff_any (chain : VerificationChain) (v : VerificationStatus) :
    v ∈ chain.steps.map (·.status) ↔
      chain.steps.any (fun s => s.status == v) = true := by
  constructor
  · intro hx
    obtain ⟨s, hs, hp⟩ := List.mem_map.mp hx
    exact List.any_eq_true.mpr ⟨s, hs, by simp [hp]⟩
  · intro hx
    simp only [List.any_eq_true, beq_iff_eq] at hx
    obtain ⟨s, hs, hp⟩ := hx
    exact List.mem_map.mpr ⟨s, hs, hp⟩

theorem all_map_status_iff_all (chain : VerificationChain) :
    (∀ v ∈ chain.steps.map (·.status), v = VerificationStatus.verified) ↔
      chain.steps.all (fun s => s.status == VerificationStatus.verified) = true := by
  constructor
  · intro hx
    refine List.all_eq_true.mpr ?_
    intro t ht
    simpa using hx t.status (List.mem_map.mpr ⟨t, ht, rfl⟩)
  · intro hx v hv
    obtain ⟨t, ht, hp⟩ := List.mem_map.mp hv
    simp only [List.all_eq_true, beq_iff_eq] at hx
    exact hp ▸ hx t ht

/-- The source status computation agrees with the spec-side derivation. -/
theorem updateChainStatus_overallStatus (now : Nat) (chain : VerificationChain) :
    (updateChainStatus now chain).overallStatus =
      specDerivedStatus (chain.steps.map (·.status)) := by
  unfold updateChainStatus specDerivedStatus
  by_cases h1 : chain.steps.length = 0
  · rw [if_pos h1, if_pos ((map_status_nil_iff chain).mpr h1)]
  · rw [if_neg h1, if_neg (fun hx => h1 ((map_status_nil_iff chain).mp hx))]
    by_cases h2 : chain.steps.any (fun s => s.status == VerificationStatus.pending)
    · rw [if_pos h2, if_pos ((mem_map_status_iff_any chain _).mpr h2)]
    · rw [if_neg h2, if_neg (fun hx => h2 ((mem_map_status_iff_any chain _).mp hx))]
      by_cases h3 : chain.steps.any (fun s => s.status == VerificationStatus.failed)
      · rw [if_pos h3, if_pos ((mem_map_status_iff_any chain _).mpr h3)]
      · rw [if_neg h3, if_neg (fun hx => h3 ((mem_map_status_iff_any chain _).mp hx))]
        by_cases h4 : chain.steps.all (fun s => s.status == VerificationStatus.verified)
        · rw [if_pos h4, if_pos ((all_map_status_iff_all chain).mpr h4)]
        · rw [if_neg h4, if_neg (fun hx => h4 ((all_map_status_iff_all chain).mp hx))]

/-- The source stamps `endTime` only in the all-verified branch and only when
it was not already set; every other branch leaves it untouched. -/
theorem updateChainStatus_endTime (now : Nat) (chain : VerificationChain) :
    (updateChainStatus now chain).endTime =
      if specDerivedStatus (chain.steps.map (·.status)) = .verified ∧
          chain.endTime = none then some now
      else chain.endTime := by
  unfold updateChainStatus specDerivedStatus
  by_cases h1 : chain.steps.length = 0
  · rw [if_pos h1, if_pos ((map_status_nil_iff chain).mpr h1)]
    simp
  · rw [if_neg h1, if_neg (fun hx => h1 ((map_status_nil_iff chain).mp hx))]
    by_cases h2 : chain.steps.any (fun s => s.status == VerificationStatus.pending)
    · rw [if_pos h2, if_pos ((mem_map_status_iff_any chain _).mpr h2)]
      simp
    · rw [if_neg h2, if_neg (fun hx => h2 ((mem_map_status_iff_any chain _).mp hx))]
      by_cases h3 : chain.steps.any (fun s => s.status == VerificationStatus.failed)
      · rw [if_pos h3, if_pos ((mem_map_status_iff_any chain _).mpr h3)]
        simp
      · rw [if_neg h3, if_neg (fun hx => h3 ((mem_map_status_iff_any chain _).mp hx))]
        by_cases h4 : chain.steps.all (fun s => s.status == VerificationStatus.verified)
        · rw [if_pos h4, if_pos ((all_map_status_iff_all chain).mpr h4)]
          cases chain.endTime with
          | none => simp
          | some t => simp
        · rw [if_neg h4, if_neg (fun hx => h4 ((all_map_status_iff_all chain).mp hx))]
          simp

theorem updateChainStatus_steps (now : Nat) (c : VerificationChain) :
    (updateChainStatus now c).steps = c.steps := by
  unfold updateChainStatus
  repeat (first | rfl | split)

theorem getChain_setChain (st : VerificationManagerState) (chainId : String)
    (c0 c : VerificationChain) (h : st.getChain chainId = some c0) :
    (st.setChain chainId c).getChain chainId = some c := by
  unfold VerificationManagerState.getChain VerificationManagerState.setChain
  unfold VerificationManagerState.getChain at h
  cases hf : st.chains.find? (fun kv => kv.1 == chainId) with
  | none => rw [hf] at h; simp at h
  | some kv =>
    have hp := List.find?_some hf
    have hres := find?_updateFirst (fun kv : String × VerificationChain => kv.1 == chainId)
      (fun kv => (kv.1, c)) st.chains kv hf (by simpa using hp)
    simp [hres]

theorem addVerificationStep_eq (st : VerificationManagerState) (stepId : String)
    (now : Nat) (chainId : String) (ty : VerificationType) (cl v : String)
    (status : VerificationStatus) (conf : ℚ) (ev ce : Option String)
    (c0 : VerificationChain) (h0 : st.getChain chainId = some c0) :
    st.addVerificationStep stepId now chainId ty cl v status conf ev ce =
      .ok ({ id := stepId, type := ty, claim := cl, verification := v,
             status := status, confidence := conf, evidence := ev,
             counterExample := ce },
           st.setChain chainId (updateChainStatus now
             { c0 with steps := c0.steps ++
               [{ id := stepId, type := ty, claim := cl, verification := v,
                  status := status, confidence := conf, evidence := ev,
                  counterExample := ce }] })) := by
  unfold VerificationManagerState.addVerificationStep
  rw [h0]

/-- The step-record update performed by `updateVerificationStep` on the step
resolved by id. -/
def applyStepUpdate (v : String) (status : VerificationStatus) (conf : ℚ)
    (ev ce : Option String) (s : VerificationStep) : VerificationStep :=
  { s with
    verification := v
    status := status
    confidence := conf
    evidence := match ev with
      | none => s.evidence
      | some e => some e
    counterExample := match ce with
      | none => s.counterExample
      | some c => some c }

theorem updateVerificationStep_eq (st : VerificationManagerState) (now : Nat)
    (chainId stepId : String) (v : String) (status : VerificationStatus)
    (conf : ℚ) (ev ce : Option String) (c0 : VerificationChain)
    (s : VerificationStep) (h0 : st.getChain chainId = some c0)
    (hs : c0.steps.find? (fun x => x.id == stepId) = some s) :
    st.updateVerificationStep now chainId stepId v status conf ev ce =
      .ok (applyStepUpdate v status conf ev ce s,
           st.setChain chainId (updateChainStatus now
             { c0 with steps := (updateFirst (fun x => x.id == stepId) (applyStepUpdate v status conf ev ce) c0.steps) })) := by
  unfold VerificationManagerState.updateVerificationStep applyStepUpdate
  rw [h0]
  simp only []
  rw [hs]

/-- C1: after any `addVerificationStep` or `updateVerificationStep` call, the
stored chain's `overallStatus` equals the strict-priority derivation from its
step statuses (no steps: pending; any pending: in_progress; otherwise any
failed: failed; otherwise all verified: verified; otherwise in_progress),
`endTime` is stamped only in the all-verified case when it was not already
set, and the derivation depends only on the multiset of statuses, not the
order of the steps. -/
theorem claim_C1 :
    (∀ (st : VerificationManagerState) (stepId : String) (now : Nat)
        (chainId : String) (ty : VerificationType) (cl v : String)
        (status : VerificationStatus) (conf : ℚ) (ev ce : Option String)
        (c0 : VerificationChain) (step : VerificationStep)
        (st' : VerificationManagerState) (c' : VerificationChain),
      st.getChain chainId = some c0 →
      st.addVerificationStep stepId now chainId ty cl v status conf ev ce =
        .ok (step, st') →
      st'.getChain chainId = some c' →
      c'.overallStatus = specDerivedStatus (c'.steps.map (·.status)) ∧
      c'.endTime = (if specDerivedStatus (c'.steps.map (·.status)) =
          VerificationStatus.verified ∧ c0.endTime = none then some now
        else c0.endTime)) ∧
    (∀ (st : VerificationManagerState) (now : Nat) (chainId stepId : String)
        (v : String) (status : VerificationStatus) (conf : ℚ)
        (ev ce : Option String) (c0 : VerificationChain)
        (step : VerificationStep) (st' : VerificationManagerState)
        (c' : VerificationChain),
      st.getChain chainId = some c0 →
      st.updateVerificationStep now chainId stepId v status conf ev ce =
        .ok (step, st') →
      st'.getChain chainId = some c' →
      c'.overallStatus = specDerivedStatus (c'.steps.map (·.status)) ∧
      c'.endTime = (if specDerivedStatus (c'.steps.map (·.status)) =
          VerificationStatus.verified ∧ c0.endTime = none then some now
        else c0.endTime)) ∧
    (∀ (l₁ l₂ : List VerificationStatus), l₁.Perm l₂ →
      specDerivedStatus l₁ = specDerivedStatus l₂) := by
  refine ⟨?_, ?_, fun l₁ l₂ h => specDerivedStatus_perm h⟩
  · intro st stepId now chainId ty cl v status conf ev ce c0 step st' c' h0 hadd hc'
    rw [addVerificationStep_eq st stepId now chainId ty cl v status conf ev ce c0 h0]
      at hadd
    simp only [Except.ok.injEq, Prod.mk.injEq] at hadd
    obtain ⟨hstep, hst'⟩ := hadd
    subst hst'
    rw [getChain_setChain st chainId c0 _ h0] at hc'
    simp only [Option.some.injEq] at hc'
    subst hc'
    constructor
    · rw [updateChainStatus_steps now _]
      exact updateChainStatus_overallStatus now _
    · rw [updateChainStatus_endTime now _, updateChainStatus_steps now _]
  · intro st now chainId stepId v status conf ev ce c0 step st' c' h0 hupd hc'
    cases hs : c0.steps.find? (fun x => x.id == stepId) with
    | none =>
      unfold VerificationManagerState.updateVerificationStep at hupd
      rw [h0] at hupd
      simp only [] at hupd
      rw [hs] at hupd
      simp at hupd
    | some s =>
      rw [updateVerificationStep_eq st now chainId stepId v status conf ev ce c0 s h0 hs]
        at hupd
      simp only [Except.ok.injEq, Prod.mk.injEq] at hupd
      obtain ⟨hstep, hst'⟩ := hupd
      subst hst'
      rw [getChain_setChain st chainId c0 _ h0] at hc'
      simp only [Option.some.injEq] at hc'
      subst hc'
      constructor
      · rw [updateChainStatus_steps now _]
        exact updateChainStatus_overallStatus now _
      · rw [updateChainStatus_endTime now _, updateChainStatus_steps now _]

/-! ## Concrete fixtures used by witnesses -/

def chainC1w : VerificationChain :=
  { id := "c1", subject := "subj", steps := [], overallStatus := .pending,
    startTime := 0, endTime := none, projectStructure := none }

def stC1w : VerificationManagerState :=
  { chains := [("c1", chainC1w)], currentChainId := some "c1" }

def stepC1w : VerificationStep :=
  { id := "s1", type := .logical, claim := "cl", verification := "v",
    status := .pending, confidence := 1/2, evidence := none, counterExample := none }

def chainC1w' : VerificationChain :=
  updateChainStatus 7 { chainC1w with steps := chainC1w.steps ++ [stepC1w] }

def stC1w' : VerificationManagerState := stC1w.setChain "c1" chainC1w'

theorem claim_C1_witness :
    chainC1w'.overallStatus = specDerivedStatus (chainC1w'.steps.map (·.status)) ∧
    chainC1w'.endTime = (if specDerivedStatus (chainC1w'.steps.map (·.status)) =
        VerificationStatus.verified ∧ chainC1w.endTime = none then some 7
      else chainC1w.endTime) :=
  claim_C1.1 stC1w "s1" 7 "c1" VerificationType.logical "cl" "v"
    VerificationStatus.pending (1/2) none none chainC1w stepC1w stC1w' chainC1w'
    rfl rfl rfl

/-- C10: once a chain's `endTime` has been set, neither `addVerificationStep`
nor `updateVerificationStep` ever clears or changes it, even when the call
moves `overallStatus` away from verified. -/
theorem claim_C10 :
    (∀ (st : VerificationManagerState) (stepId : String) (now : Nat)
        (chainId : String) (ty : VerificationType) (cl v : String)
        (status : VerificationStatus) (conf : ℚ) (ev ce : Option String)
        (c0 : VerificationChain) (t : Nat) (step : VerificationStep)
        (st' : VerificationManagerState) (c' : VerificationChain),
      st.getChain chainId = some c0 →
      c0.endTime = some t →
      st.addVerificationStep stepId now chainId ty cl v status conf ev ce =
        .ok (step, st') →
      st'.getChain chainId = some c' →
      c'.endTime = some t) ∧
    (∀ (st : VerificationManagerState) (now : Nat) (chainId stepId : String)
        (v : String) (status : VerificationStatus) (conf : ℚ)
        (ev ce : Option String) (c0 : VerificationChain) (t : Nat)
        (step : VerificationStep) (st' : VerificationManagerState)
        (c' : VerificationChain),
      st.getChain chainId = some c0 →
      c0.endTime = some t →
      st.updateVerificationStep now chainId stepId v status conf ev ce =
        .ok (step, st') →
      st'.getChain chainId = some c' →
      c'.endTime = some t) := by
  constructor
  · intro st stepId now chainId ty cl v status conf ev ce c0 t step st' c'
      h0 het hadd hc'
    rw [addVerificationStep_eq st stepId now chainId ty cl v status conf ev ce c0 h0]
      at hadd
    simp only [Except.ok.injEq, Prod.mk.injEq] at hadd
    obtain ⟨hstep, hst'⟩ := hadd
    subst hst'
    rw [getChain_setChain st chainId c0 _ h0] at hc'
    simp only [Option.some.injEq] at hc'
    subst hc'
    rw [updateChainStatus_endTime now _]
    simp [het]
  · intro st now chainId stepId v status conf ev ce c0 t step st' c'
      h0 het hupd hc'
    cases hs : c0.steps.find? (fun x => x.id == stepId) with
    | none =>
      unfold VerificationManagerState.updateVerificationStep at hupd
      rw [h0] at hupd
      simp only [] at hupd
      rw [hs] at hupd
      simp at hupd
    | some s =>
      rw [updateVerificationStep_eq st now chainId stepId v status conf ev ce c0 s h0 hs]
        at hupd
      simp only [Except.ok.injEq, Prod.mk.injEq] at hupd
      obtain ⟨hstep, hst'⟩ := hupd
      subst hst'
      rw [getChain_setChain st chainId c0 _ h0] at hc'
      simp only [Option.some.injEq] at hc'
      subst hc'
      rw [updateChainStatus_endTime now _]
      simp [het]

def stepC10w : VerificationStep :=
  { id := "s1", type := .factual, claim := "cl", verification := "v",
    status := .verified, confidence := 1, evidence := none, counterExample := none }

def chainC10w : VerificationChain :=
  { id := "c1", subject := "subj", steps := [stepC10w], overallStatus := .verified,
    startTime := 0, endTime := some 5, projectStructure := none }

def stC10w : VerificationManagerState :=
  { chains := [("c1", chainC10w)], currentChainId := some "c1" }

def chainC10w' : VerificationChain :=
  updateChainStatus 9 { chainC10w with
    steps := (updateFirst (fun x => x.id == "s1") (applyStepUpdate "v2" VerificationStatus.failed (1/4) none none) chainC10w.steps) }

def stC10w' : VerificationManagerState := stC10w.setChain "c1" chainC10w'

theorem claim_C10_witness : chainC10w'.endTime = some 5 :=
  claim_C10.2 stC10w 9 "c1" "s1" "v2" VerificationStatus.failed (1/4) none none
    chainC10w 5 (applyStepUpdate "v2" VerificationStatus.failed (1/4) none none stepC10w)
    stC10w' chainC10w' rfl rfl rfl rfl

/-- C6: `updateVerificationStep` always overwrites the resolved step's
verification text, status and confidence, but overwrites evidence
(respectively counterExample) only when that argument is present: an absent
argument leaves the stored value unchanged, while any present string,
including the empty string, replaces it. -/
theorem claim_C6 :
    ∀ (st : VerificationManagerState) (now : Nat) (chainId stepId : String)
      (v : String) (status : VerificationStatus) (conf : ℚ)
      (ev ce : Option String) (c0 : VerificationChain) (s : VerificationStep)
      (step : VerificationStep) (st' : VerificationManagerState)
      (c' : VerificationChain),
    st.getChain chainId = some c0 →
    c0.steps.find? (fun x => x.id == stepId) = some s →
    st.updateVerificationStep now chainId stepId v status conf ev ce =
      .ok (step, st') →
    st'.getChain chainId = some c' →
    c'.steps.find? (fun x => x.id == stepId) = some step ∧
    step.verification = v ∧
    step.status = status ∧
    step.confidence = conf ∧
    step.evidence = ev.or s.evidence ∧
    step.counterExample = ce.or s.counterExample := by
  intro st now chainId stepId v status conf ev ce c0 s step st' c' h0 hs hupd hc'
  rw [updateVerificationStep_eq st now chainId stepId v status conf ev ce c0 s h0 hs]
    at hupd
  simp only [Except.ok.injEq, Prod.mk.injEq] at hupd
  obtain ⟨hstep, hst'⟩ := hupd
  subst hst'
  rw [getChain_setChain st chainId c0 _ h0] at hc'
  simp only [Option.some.injEq] at hc'
  subst hc'
  have hps := List.find?_some hs
  have hid : (applyStepUpdate v status conf ev ce s).id = s.id := rfl
  have hfind := find?_updateFirst (fun x : VerificationStep => x.id == stepId)
    (applyStepUpdate v status conf ev ce) c0.steps s hs (by simpa [hid] using hps)
  refine ⟨?_, ?_, ?_, ?_, ?_, ?_⟩
  · rw [updateChainStatus_steps now _]
    rw [hstep] at hfind
    exact hfind
  · rw [← hstep]; rfl
  · rw [← hstep]; rfl
  · rw [← hstep]; rfl
  · rw [← hstep]
    cases ev <;> rfl
  · rw [← hstep]
    cases ce <;> rfl

def stepC6w : VerificationStep :=
  { id := "s1", type := .code, claim := "cl", verification := "v",
    status := .pending, confidence := 1/2, evidence := some "old evidence",
    counterExample := some "old counterexample" }

def chainC6w : VerificationChain :=
  { id := "c1", subject := "subj", steps := [stepC6w], overallStatus := .in_progress,
    startTime := 0, endTime := none, projectStructure := none }

def stC6w : VerificationManagerState :=
  { chains := [("c1", chainC6w)], currentChainId := some "c1" }

def stepC6w' : VerificationStep :=
  applyStepUpdate "v2" VerificationStatus.verified (4/5) none (some "") stepC6w

def chainC6w' : VerificationChain :=
  updateChainStatus 4 { chainC6w with
    steps := (updateFirst (fun x => x.id == "s1") (applyStepUpdate "v2" VerificationStatus.verified (4/5) none (some "")) chainC6w.steps) }

def stC6w' : VerificationManagerState := stC6w.setChain "c1" chainC6w'

theorem claim_C6_witness :
    chainC6w'.steps.find? (fun x => x.id == "s1") = some stepC6w' ∧
    stepC6w'.verification = "v2" ∧
    stepC6w'.status = VerificationStatus.verified ∧
    stepC6w'.confidence = 4/5 ∧
    stepC6w'.evidence = Option.or none stepC6w.evidence ∧
    stepC6w'.counterExample = Option.or (some "") stepC6w.counterExample :=
  claim_C6 stC6w 4 "c1" "s1" "v2" VerificationStatus.verified (4/5) none (some "")
    chainC6w stepC6w stepC6w' stC6w' chainC6w' rfl rfl rfl rfl

theorem mem_updateFirst (p : α → Bool) (f : α → α) (l : List α) (x : α)
    (hx : x ∈ updateFirst p f l) : x ∈ l ∨ ∃ a ∈ l, x = f a := by
  induction l with
  | nil => simp [updateFirst] at hx
  | cons y ys ih =>
    by_cases hy : p y
    · rw [updateFirst_cons, if_pos hy] at hx
      rcases List.mem_cons.mp hx with h | h
      · exact Or.inr ⟨y, List.mem_cons_self y ys, h⟩
      · exact Or.inl (List.mem_cons_of_mem _ h)
    · rw [updateFirst_cons, if_neg hy] at hx
      rcases List.mem_cons.mp hx with h | h
      · exact Or.inl (h ▸ List.mem_cons_self y ys)
      · rcases ih h with h' | ⟨a, ha, hfa⟩
        · exact Or.inl (List.mem_cons_of_mem _ h')
        · exact Or.inr ⟨a, List.mem_cons_of_mem _ ha, hfa⟩

/-! ## Dispatcher layer of the verification tool
(src/tools/verification-thinking/verificationThinkingTool.ts lines 60-97). -/

/-- JS `x || d` for an optional string: absent and empty are both falsy. -/
def jsOrString (o : Option String) (d : String) : String :=
  match o with
  | none => d
  | some s => if s == "" then d else s

/-- JS truthiness of an optional string value. -/
def jsTruthy (o : Option String) : Bool :=
  match o with
  | none => false
  | some s => !(s == "")

/-- The "add a verification step" branch of `processThought`: status is
hardcoded to pending and confidence to 0.5. -/
def toolAddVerificationStep (st : VerificationManagerState) (stepId : String)
    (now : Nat) (chainId : String) (ty : VerificationType) (claim : String)
    (verificationOpt evidence counterExample : Option String) :
    Except String (VerificationStep × VerificationManagerState) :=
  st.addVerificationStep stepId now chainId ty claim
    (jsOrString verificationOpt "Pending verification...")
    .pending (1/2) evidence counterExample

/-- The "update a verification step" branch of `processThought`: status
defaults to in_progress and confidence is 0.8 when evidence is truthy,
otherwise 0.5. -/
def toolUpdateVerificationStep (st : VerificationManagerState) (now : Nat)
    (chainId stepId verification : String) (statusOpt : Option VerificationStatus)
    (evidence counterExample : Option String) :
    Except String (VerificationStep × VerificationManagerState) :=
  st.updateVerificationStep now chainId stepId verification
    (statusOpt.getD .in_progress)
    (if jsTruthy evidence then 4/5 else 1/2) evidence counterExample

/-- The confidence-range invariant of the specification. -/
def chainConfInv (c : VerificationChain) : Prop :=
  ∀ s ∈ c.steps, 0 ≤ s.confidence ∧ s.confidence ≤ 1

def stepC7w : VerificationStep :=
  { id := "s1", type := .logical, claim := "cl", verification := "v",
    status := .pending, confidence := 1/2, evidence := none, counterExample := none }

def chainC7w : VerificationChain :=
  { id := "c1", subject := "subj", steps := [stepC7w], overallStatus := .in_progress,
    startTime := 0, endTime := none, projectStructure := none }

def stC7w : VerificationManagerState :=
  { chains := [("c1", chainC7w)], currentChainId := some "c1" }

/-- C7 as stated is false: `updateVerificationStep` stores a caller-supplied
confidence of 2 unchanged, leaving a step whose confidence is outside
[0,1]. -/
theorem claim_C7_counterexample :
    (match stC7w.updateVerificationStep 3 "c1" "s1" "v2"
        VerificationStatus.verified 2 none none with
      | .ok (_, st') => (st'.getChain "c1").map (fun c => c.steps.map (·.confidence))
      | .error _ => none) = some [2] ∧ ¬ ((0:ℚ) ≤ 2 ∧ (2:ℚ) ≤ 1) := by
  constructor
  · rfl
  · norm_num

/-- C7 amended: the manager stores the caller-supplied confidence verbatim
(no clamping), so an out-of-range argument violates the invariant; the
invariant is preserved for calls issued through the verification tool
dispatcher, which only ever supplies confidence 0.5 on add and 0.8 or 0.5 on
update. -/
theorem claim_C7 :
    (∀ (st : VerificationManagerState) (now : Nat) (chainId stepId : String)
        (v : String) (status : VerificationStatus) (conf : ℚ)
        (ev ce : Option String) (step : VerificationStep)
        (st' : VerificationManagerState),
      st.updateVerificationStep now chainId stepId v status conf ev ce =
        .ok (step, st') →
      step.confidence = conf) ∧
    (∀ (st : VerificationManagerState) (stepId : String) (now : Nat)
        (chainId : String) (ty : VerificationType) (cl : String)
        (vOpt ev ce : Option String) (c0 : VerificationChain)
        (step : VerificationStep) (st' : VerificationManagerState)
        (c' : VerificationChain),
      st.getChain chainId = some c0 → chainConfInv c0 →
      toolAddVerificationStep st stepId now chainId ty cl vOpt ev ce =
        .ok (step, st') →
      st'.getChain chainId = some c' → chainConfInv c') ∧
    (∀ (st : VerificationManagerState) (now : Nat) (chainId stepId : String)
        (v : String) (statusOpt : Option VerificationStatus)
        (ev ce : Option String) (c0 : VerificationChain)
        (step : VerificationStep) (st' : VerificationManagerState)
        (c' : VerificationChain),
      st.getChain chainId = some c0 → chainConfInv c0 →
      toolUpdateVerificationStep st now chainId stepId v statusOpt ev ce =
        .ok (step, st') →
      st'.getChain chainId = some c' → chainConfInv c') := by
  refine ⟨?_, ?_, ?_⟩
  · intro st now chainId stepId v status conf ev ce step st' hupd
    cases h0 : st.getChain chainId with
    | none =>
      unfold VerificationManagerState.updateVerificationStep at hupd
      rw [h0] at hupd
      simp at hupd
    | some c0 =>
      cases hs : c0.steps.find? (fun x => x.id == stepId) with
      | none =>
        unfold VerificationManagerState.updateVerificationStep at hupd
        rw [h0] at hupd
        simp only [] at hupd
        rw [hs] at hupd
        simp at hupd
      | some s =>
        rw [updateVerificationStep_eq st now chainId stepId v status conf ev ce c0 s h0 hs]
          at hupd
        simp only [Except.ok.injEq, Prod.mk.injEq] at hupd
        rw [← hupd.1]
        rfl
  · intro st stepId now chainId ty cl vOpt ev ce c0 step st' c' h0 hinv hadd hc'
    unfold toolAddVerificationStep at hadd
    rw [addVerificationStep_eq st stepId now chainId ty cl
      (jsOrString vOpt "Pending verification...") VerificationStatus.pending
      (1/2) ev ce c0 h0] at hadd
    simp only [Except.ok.injEq, Prod.mk.injEq] at hadd
    obtain ⟨hstep, hst'⟩ := hadd
    subst hst'
    rw [getChain_setChain st chainId c0 _ h0] at hc'
    simp only [Option.some.injEq] at hc'
    subst hc'
    intro s hs
    rw [updateChainStatus_steps now _] at hs
    simp only [List.mem_append, List.mem_singleton] at hs
    rcases hs with hs | hs
    · exact hinv s hs
    · subst hs
      constructor <;> norm_num
  · intro st now chainId stepId v statusOpt ev ce c0 step st' c' h0 hinv hupd hc'
    unfold toolUpdateVerificationStep at hupd
    cases hs : c0.steps.find? (fun x => x.id == stepId) with
    | none =>
      unfold VerificationManagerState.updateVerificationStep at hupd
      rw [h0] at hupd
      simp only [] at hupd
      rw [hs] at hupd
      simp at hupd
    | some s =>
      rw [updateVerificationStep_eq st now chainId stepId v
        (statusOpt.getD VerificationStatus.in_progress)
        (if jsTruthy ev then 4/5 else 1/2) ev ce c0 s h0 hs] at hupd
      simp only [Except.ok.injEq, Prod.mk.injEq] at hupd
      obtain ⟨hstep, hst'⟩ := hupd
      subst hst'
      rw [getChain_setChain st chainId c0 _ h0] at hc'
      simp only [Option.some.injEq] at hc'
      subst hc'
      intro x hx
      rw [updateChainStatus_steps now _] at hx
      rcases mem_updateFirst _ _ _ _ hx with hmem | ⟨a, _, hxa⟩
      · exact hinv x hmem
      · subst hxa
        have : (applyStepUpdate v (statusOpt.getD VerificationStatus.in_progress)
            (if jsTruthy ev then 4/5 else 1/2) ev ce a).confidence =
            (if jsTruthy ev then (4:ℚ)/5 else 1/2) := rfl
        rw [this]
        by_cases hj : jsTruthy ev
        · rw [if_pos hj]
          constructor <;> norm_num
        · rw [if_neg hj]
          constructor <;> norm_num

def stepC7v : VerificationStep :=
  applyStepUpdate "vv" VerificationStatus.failed 2 none none stepC7w

def chainC7v : VerificationChain :=
  updateChainStatus 6 { chainC7w with
    steps := (updateFirst (fun x => x.id == "s1") (applyStepUpdate "vv" VerificationStatus.failed 2 none none) chainC7w.steps) }

def stC7v : VerificationManagerState := stC7w.setChain "c1" chainC7v

def chainC7w' : VerificationChain :=
  updateChainStatus 3 { chainC7w with
    steps := (updateFirst (fun x => x.id == "s1") (applyStepUpdate "v2" VerificationStatus.verified (4/5) (some "e") none) chainC7w.steps) }

def stC7w' : VerificationManagerState := stC7w.setChain "c1" chainC7w'

theorem chainC7w_conf_inv : chainConfInv chainC7w := by
  intro s hs
  simp only [chainC7w, stepC7w, List.mem_singleton] at hs
  subst hs
  constructor <;> norm_num

theorem claim_C7_witness :
    stepC7v.confidence = 2 ∧ chainConfInv chainC7w' :=
  ⟨claim_C7.1 stC7w 6 "c1" "s1" "vv" VerificationStatus.failed 2 none none
      stepC7v stC7v rfl,
   claim_C7.2.2 stC7w 3 "c1" "s1" "v2" (some VerificationStatus.verified)
      (some "e") none chainC7w
      (applyStepUpdate "v2" VerificationStatus.verified (4/5) (some "e") none stepC7w)
      stC7w' chainC7w' rfl chainC7w_conf_inv rfl rfl⟩

/-- JS `Map.set`: replaces the value stored under an existing key in place,
otherwise appends the entry at the end (insertion order). -/
def mapSet (k : String) (v : α) : List (String × α) → List (String × α)
  | [] => [(k, v)]
  | kv :: rest => if kv.1 == k then (kv.1, v) :: rest else kv :: mapSet k v rest

theorem find?_map_mapSet (k : String) (v : α) (l : List (String × α)) :
    ((mapSet k v l).find? (fun kv => kv.1 == k)).map (·.2) = some v := by
  induction l with
  | nil => simp [mapSet, List.find?]
  | cons kv rest ih =>
    by_cases hk : kv.1 == k
    · simp [mapSet, hk, List.find?]
    · simp only [mapSet, hk, if_false, Bool.false_eq_true]
      simp only [List.find?, hk]
      exact ih

/-! ## Template thinking: data model (src/tools/template-thinking/types.ts).
`category` is kept as the runtime string value; `order` is an `Int` since the
validator compares it against 1. -/

structure ThinkingStep where
  id : String
  content : String
  order : Int
  isComplete : Bool
  notes : Option String
deriving DecidableEq, Repr

structure ThinkingTemplate where
  id : String
  name : String
  category : String
  description : String
  steps : List ThinkingStep
  createdAt : Nat
  lastUsed : Option Nat
  usageCount : Nat
  isBuiltIn : Bool
deriving DecidableEq, Repr

structure TemplateSession where
  id : String
  templateId : String
  currentStepIndex : Nat
  steps : List ThinkingStep
  startTime : Nat
  endTime : Option Nat
deriving DecidableEq, Repr

/-- A raw step of a create-template request: `{content, order}`. -/
structure StepInput where
  content : String
  order : Int
deriving DecidableEq, Repr

/-! ## TemplateManager (src/tools/template-thinking/templateManager.ts,
persistence variant with counter-based `generateId`). -/

structure TemplateManagerState where
  templates : List (String × ThinkingTemplate)
  sessions : List (String × TemplateSession)
  currentSessionId : Option String
  stepCounter : Nat
  sessionCounter : Nat
  templateCounter : Nat
deriving DecidableEq, Repr

def TemplateManagerState.getTemplateById (st : TemplateManagerState)
    (templateId : String) : Option ThinkingTemplate :=
  (st.templates.find? (fun kv => kv.1 == templateId)).map (·.2)

def TemplateManagerState.getSession (st : TemplateManagerState)
    (sessionId : String) : Option TemplateSession :=
  (st.sessions.find? (fun kv => kv.1 == sessionId)).map (·.2)

/-- `steps.map(step => ({id: generateId('step'), ...}))` of `createTemplate`:
each mapped step draws a fresh counter-based id and starts incomplete. -/
def genTemplateSteps (counter : Nat) : List StepInput → List ThinkingStep × Nat
  | [] => ([], counter)
  | s :: rest =>
    let (tl, c) := genTemplateSteps (counter + 1) rest
    ({ id := "step-" ++ toString (counter + 1), content := s.content,
       order := s.order, isComplete := false, notes := none } :: tl, c)

/-- `createTemplate` of templateManager.ts (no input validation here): builds
the template, stores it, returns it. -/
def TemplateManagerState.createTemplate (st : TemplateManagerState) (now : Nat)
    (name : String) (category : String) (description : String)
    (steps : List StepInput) : ThinkingTemplate × TemplateManagerState :=
  let templateId := "template-" ++ toString (st.templateCounter + 1)
  let (tsteps, stepCounter1) := genTemplateSteps st.stepCounter steps
  let template : ThinkingTemplate :=
    { id := templateId, name := name, category := category,
      description := description, steps := tsteps, createdAt := now,
      lastUsed := none, usageCount := 0, isBuiltIn := false }
  (template,
   { st with
     templates := mapSet templateId template st.templates
     templateCounter := st.templateCounter + 1
     stepCounter := stepCounter1 })

/-- `createSession` of templateManager.ts: resolves the template (error when
absent), increments its usageCount and stamps lastUsed, then stores a new
session whose steps are a deep copy (`JSON.parse(JSON.stringify(...))`, here a
value copy) of the template's steps, with cursor 0. -/
def TemplateManagerState.createSession (st : TemplateManagerState) (now : Nat)
    (templateId : String) :
    Except String (TemplateSession × TemplateManagerState) :=
  match st.getTemplateById templateId with
  | none => .error ("Template " ++ templateId ++ " not found")
  | some template =>
    let template1 := { template with
      usageCount := template.usageCount + 1
      lastUsed := some now }
    let st1 := { st with
      templates := updateFirst (fun kv => kv.1 == templateId)
        (fun kv => (kv.1, template1)) st.templates }
    let sessionId := "session-" ++ toString (st.sessionCounter + 1)
    let session : TemplateSession :=
      { id := sessionId, templateId := templateId, currentStepIndex := 0,
        steps := template1.steps, startTime := now, endTime := none }
    .ok (session,
      { st1 with
        sessions := mapSet sessionId session st1.sessions
        currentSessionId := some sessionId
        sessionCounter := st.sessionCounter + 1 })

/-- The in-place step mutation of `updateStep` (templateManager.ts lines
242-266 / part_002 lines 1057-1084): overwrite content, mark complete. -/
def applyTemplateStepUpdate (content : String) (s : ThinkingStep) : ThinkingStep :=
  { s with content := content, isComplete := true }

/-- The session mutation of `updateStep` once the step has been resolved:
`steps1` is the session's step array after the in-place step mutation (same
ids and length); `currentIndex` is `findIndex` on that mutated array.  A
non-final step advances the cursor to `currentIndex + 1`; the final step
stamps `endTime` and leaves the cursor. -/
def sessionAfterUpdate (sess : TemplateSession) (stepId content : String)
    (now : Nat) : TemplateSession :=
  let steps1 := updateFirst (fun s => s.id == stepId)
    (applyTemplateStepUpdate content) sess.steps
  let currentIndex := steps1.findIdx (fun s => s.id == stepId)
  if currentIndex < steps1.length - 1 then
    { sess with steps := steps1, currentStepIndex := currentIndex + 1 }
  else
    { sess with steps := steps1, endTime := some now }

def TemplateManagerState.updateStep (st : TemplateManagerState) (now : Nat)
    (sessionId stepId content : String) :
    Except String (ThinkingStep × TemplateManagerState) :=
  match st.getSession sessionId with
  | none => .error ("Session " ++ sessionId ++ " not found")
  | some session =>
    match session.steps.find? (fun s => s.id == stepId) with
    | none => .error ("Step " ++ stepId ++ " not found in session " ++ sessionId)
    | some step =>
      .ok (applyTemplateStepUpdate content step,
        { st with
          sessions := updateFirst (fun kv => kv.1 == sessionId)
            (fun kv => (kv.1, sessionAfterUpdate session stepId content now)) st.sessions })

/-! ## Input schema validation (src/common/schemaValidator.ts,
`validateTemplateThinkingInput`, createTemplate branch): runs in index.ts
before any manager call, so a rejected request never reaches the catalog. -/

def validateCreateTemplateSteps : List StepInput → Except String Unit
  | [] => .ok ()
  | s :: rest =>
    if s.content = "" then
      .error "Each step must have a content property that is a string"
    else if s.order < 1 then
      .error "Each step must have an order property that is a number greater than 0"
    else validateCreateTemplateSteps rest

def validateCreateTemplate (name category description : String)
    (steps : List StepInput) : Except String Unit :=
  if name = "" then
    .error "Template name is required and must be a string"
  else if category = "" then
    .error "Template category is required and must be a string"
  else if description = "" then
    .error "Template description is required and must be a string"
  else if steps.isEmpty then
    .error "Template steps are required and must be a non-empty array"
  else validateCreateTemplateSteps steps

/-- The create-template request path: `validateInput` in index.ts, then the
manager's `createTemplate`; a validation failure is returned to the caller
and the manager is never invoked. -/
def processCreateTemplate (st : TemplateManagerState) (now : Nat)
    (name category description : String) (steps : List StepInput) :
    Except String (ThinkingTemplate × TemplateManagerState) :=
  match validateCreateTemplate name category description steps with
  | .error e => .error e
  | .ok _ => .ok (st.createTemplate now name category description steps)

def isErrorResult : Except String α → Bool
  | .error _ => true
  | .ok _ => false

theorem validateCreateTemplateSteps_error_of_bad (steps : List StepInput)
    (h : ∃ s ∈ steps, s.content = "" ∨ s.order < 1) :
    ∃ msg, validateCreateTemplateSteps steps = .error msg := by
  induction steps with
  | nil => simp at h
  | cons x rest ih =>
    by_cases hc : x.content = ""
    · exact ⟨"Each step must have a content property that is a string",
        by simp [validateCreateTemplateSteps, hc]⟩
    · by_cases ho : x.order < 1
      · exact ⟨"Each step must have an order property that is a number greater than 0",
          by simp [validateCreateTemplateSteps, hc, ho]⟩
      · obtain ⟨s, hs, hbad⟩ := h
        rcases List.mem_cons.mp hs with heq | hs'
        · subst heq
          rcases hbad with h1 | h1
          · exact absurd h1 hc
          · exact absurd h1 ho
        · obtain ⟨msg, hmsg⟩ := ih ⟨s, hs', hbad⟩
          exact ⟨msg, by simp [validateCreateTemplateSteps, hc, ho, hmsg]⟩

/-- C3: a create-template request whose steps list is empty, or that contains
a step with order < 1, or whose name/description/step-content fields are
empty, fails schema validation, and since validation runs before the manager,
no template is added to the catalog. -/
theorem claim_C3 :
    ∀ (st : TemplateManagerState) (now : Nat)
      (name category description : String) (steps : List StepInput),
    (steps = [] ∨ (∃ s ∈ steps, s.order < 1) ∨ name = "" ∨ description = "" ∨
      (∃ s ∈ steps, s.content = "")) →
    isErrorResult (validateCreateTemplate name category description steps) = true ∧
    isErrorResult (processCreateTemplate st now name category description steps) = true := by
  intro st now name category description steps h
  have hval : ∃ msg,
      validateCreateTemplate name category description steps = .error msg := by
    unfold validateCreateTemplate
    by_cases hn : name = ""
    · exact ⟨_, by rw [if_pos hn]⟩
    · rw [if_neg hn]
      by_cases hcat : category = ""
      · exact ⟨_, by rw [if_pos hcat]⟩
      · rw [if_neg hcat]
        by_cases hd : description = ""
        · exact ⟨_, by rw [if_pos hd]⟩
        · rw [if_neg hd]
          by_cases he : steps.isEmpty
          · exact ⟨_, by rw [if_pos he]⟩
          · rw [if_neg he]
            rcases h with h | h | h | h | h
            · rw [h] at he
              simp at he
            · obtain ⟨s, hs, ho⟩ := h
              exact validateCreateTemplateSteps_error_of_bad steps ⟨s, hs, Or.inr ho⟩
            · exact absurd h hn
            · exact absurd h hd
            · obtain ⟨s, hs, hc⟩ := h
              exact validateCreateTemplateSteps_error_of_bad steps ⟨s, hs, Or.inl hc⟩
  obtain ⟨msg, hmsg⟩ := hval
  constructor
  · rw [hmsg]
    rfl
  · unfold processCreateTemplate
    rw [hmsg]
    rfl

def stC3w : TemplateManagerState :=
  { templates := [], sessions := [], currentSessionId := none,
    stepCounter := 0, sessionCounter := 0, templateCounter := 0 }

theorem claim_C3_witness :
    isErrorResult (validateCreateTemplate "Zero Step Template" "custom" "d" []) = true ∧
    isErrorResult (processCreateTemplate stC3w 0 "Zero Step Template" "custom" "d" []) = true :=
  claim_C3 stC3w 0 "Zero Step Template" "custom" "d" [] (Or.inl rfl)

theorem find?_map_updateFirst_assoc (k : String) (v0 : α) (v1 : α)
    (l : List (String × α))
    (h : (l.find? (fun kv => kv.1 == k)).map (·.2) = some v0) :
    ((updateFirst (fun kv => kv.1 == k) (fun kv => (kv.1, v1)) l).find?
      (fun kv => kv.1 == k)).map (·.2) = some v1 := by
  cases hf : l.find? (fun kv => kv.1 == k) with
  | none => rw [hf] at h; simp at h
  | some kv =>
    have hp := List.find?_some hf
    have hres := find?_updateFirst (fun kv : String × α => kv.1 == k)
      (fun kv => (kv.1, v1)) l kv hf (by simpa using hp)
    simp [hres]

theorem createSession_eq (st : TemplateManagerState) (now : Nat)
    (templateId : String) (t : ThinkingTemplate)
    (h : st.getTemplateById templateId = some t) :
    st.createSession now templateId =
      .ok ({ id := "session-" ++ toString (st.sessionCounter + 1),
             templateId := templateId, currentStepIndex := 0,
             steps := t.steps, startTime := now, endTime := none },
           { st with
             templates := (updateFirst (fun kv => kv.1 == templateId) (fun kv => (kv.1, { t with usageCount := t.usageCount + 1, lastUsed := some now })) st.templates)
             sessions := (mapSet ("session-" ++ toString (st.sessionCounter + 1)) { id := "session-" ++ toString (st.sessionCounter + 1), templateId := templateId, currentStepIndex := 0, steps := t.steps, startTime := now, endTime := none } st.sessions)
             currentSessionId := some ("session-" ++ toString (st.sessionCounter + 1))
             sessionCounter := st.sessionCounter + 1 }) := by
  unfold TemplateManagerState.createSession
  rw [h]

/-- C4: `createSession` on an unknown template id fails and produces no new
state; on a known id (whose steps are all incomplete, as for every reachable
template) it returns a session with as many steps as the template, cursor 0,
all steps incomplete, and the stored template's usageCount incremented with
lastUsed stamped. -/
theorem claim_C4 :
    (∀ (st : TemplateManagerState) (now : Nat) (templateId : String),
      st.getTemplateById templateId = none →
      isErrorResult (st.createSession now templateId) = true) ∧
    (∀ (st : TemplateManagerState) (now : Nat) (templateId : String)
        (t : ThinkingTemplate) (sess : TemplateSession)
        (st' : TemplateManagerState),
      st.getTemplateById templateId = some t →
      (∀ s ∈ t.steps, s.isComplete = false) →
      st.createSession now templateId = .ok (sess, st') →
      sess.steps.length = t.steps.length ∧
      sess.currentStepIndex = 0 ∧
      (∀ s ∈ sess.steps, s.isComplete = false) ∧
      st'.getTemplateById templateId =
        some { t with usageCount := t.usageCount + 1, lastUsed := some now }) := by
  constructor
  · intro st now templateId h
    unfold TemplateManagerState.createSession
    rw [h]
    rfl
  · intro st now templateId t sess st' h hinc hcs
    rw [createSession_eq st now templateId t h] at hcs
    simp only [Except.ok.injEq, Prod.mk.injEq] at hcs
    obtain ⟨hsess, hst'⟩ := hcs
    subst hsess
    subst hst'
    refine ⟨rfl, rfl, hinc, ?_⟩
    unfold TemplateManagerState.getTemplateById at h ⊢
    exact find?_map_updateFirst_assoc templateId t _ st.templates h

theorem updateStep_eq (st : TemplateManagerState) (now : Nat)
    (sessionId stepId content : String) (sess : TemplateSession)
    (step : ThinkingStep)
    (h : st.getSession sessionId = some sess)
    (hs : sess.steps.find? (fun s => s.id == stepId) = some step) :
    st.updateStep now sessionId stepId content =
      .ok (applyTemplateStepUpdate content step,
        { st with
          sessions := (updateFirst (fun kv => kv.1 == sessionId) (fun kv => (kv.1, sessionAfterUpdate sess stepId content now)) st.sessions) }) := by
  unfold TemplateManagerState.updateStep
  rw [h]
  simp only []
  rw [hs]

def stepT1 : ThinkingStep :=
  { id := "step-1", content := "a", order := 1, isComplete := false, notes := none }

def stepT2 : ThinkingStep :=
  { id := "step-2", content := "b", order := 2, isComplete := false, notes := none }

def tplC4 : ThinkingTemplate :=
  { id := "template-1", name := "T", category := "analysis", description := "d",
    steps := [stepT1, stepT2], createdAt := 0, lastUsed := none,
    usageCount := 0, isBuiltIn := true }

def stC4 : TemplateManagerState :=
  { templates := [("template-1", tplC4)], sessions := [],
    currentSessionId := none, stepCounter := 2, sessionCounter := 0,
    templateCounter := 1 }

def sessC4 : TemplateSession :=
  { id := "session-1", templateId := "template-1", currentStepIndex := 0,
    steps := [stepT1, stepT2], startTime := 3, endTime := none }

def stC4w : TemplateManagerState :=
  match stC4.createSession 3 "template-1" with
  | .ok x => x.2
  | .error _ => stC4

theorem claim_C4_witness :
    (isErrorResult (stC4.createSession 3 "missing") = true) ∧
    (sessC4.steps.length = tplC4.steps.length ∧
     sessC4.currentStepIndex = 0 ∧
     (∀ s ∈ sessC4.steps, s.isComplete = false) ∧
     stC4w.getTemplateById "template-1" =
       some { tplC4 with usageCount := tplC4.usageCount + 1, lastUsed := some 3 }) :=
  ⟨claim_C4.1 stC4 3 "missing" rfl,
   claim_C4.2 stC4 3 "template-1" tplC4 sessC4 stC4w rfl (by decide) rfl⟩

/-- C9: a session's steps are a value copy of the template's steps at
creation time (never aliased in this embedding), and `updateStep` mutates
only the sessions table: the templates table, and hence every template's
steps, is completely unchanged. -/
theorem claim_C9 :
    (∀ (st : TemplateManagerState) (now : Nat) (templateId : String)
        (t : ThinkingTemplate) (sess : TemplateSession)
        (st' : TemplateManagerState),
      st.getTemplateById templateId = some t →
      st.createSession now templateId = .ok (sess, st') →
      sess.steps = t.steps) ∧
    (∀ (st : TemplateManagerState) (now : Nat)
        (sessionId stepId content : String) (step : ThinkingStep)
        (st' : TemplateManagerState),
      st.updateStep now sessionId stepId content = .ok (step, st') →
      st'.templates = st.templates) := by
  constructor
  · intro st now templateId t sess st' h hcs
    rw [createSession_eq st now templateId t h] at hcs
    simp only [Except.ok.injEq, Prod.mk.injEq] at hcs
    rw [← hcs.1]
  · intro st now sessionId stepId content step st' hupd
    cases h : st.getSession sessionId with
    | none =>
      unfold TemplateManagerState.updateStep at hupd
      rw [h] at hupd
      simp at hupd
    | some sess =>
      cases hs : sess.steps.find? (fun s => s.id == stepId) with
      | none =>
        unfold TemplateManagerState.updateStep at hupd
        rw [h] at hupd
        simp only [] at hupd
        rw [hs] at hupd
        simp at hupd
      | some s =>
        rw [updateStep_eq st now sessionId stepId content sess s h hs] at hupd
        simp only [Except.ok.injEq, Prod.mk.injEq] at hupd
        rw [← hupd.2]

def stC9w : TemplateManagerState :=
  match stC4w.updateStep 5 "session-1" "step-1" "done" with
  | .ok x => x.2
  | .error _ => stC4w

theorem claim_C9_witness :
    sessC4.steps = tplC4.steps ∧ stC9w.templates = stC4w.templates :=
  ⟨claim_C9.1 stC4 3 "template-1" tplC4 sessC4 stC4w rfl rfl,
   claim_C9.2 stC4w 5 "session-1" "step-1" "done"
     (applyTemplateStepUpdate "done" stepT1) stC9w rfl⟩

theorem length_updateFirst (p : α → Bool) (f : α → α) (l : List α) :
    (updateFirst p f l).length = l.length := by
  induction l with
  | nil => rfl
  | cons x xs ih =>
    by_cases hx : p x
    · simp [updateFirst_cons, hx]
    · simp [updateFirst_cons, hx, ih]

theorem findIdx_updateFirst (p q : α → Bool) (f : α → α)
    (hq : ∀ a, q (f a) = q a) (l : List α) :
    (updateFirst p f l).findIdx q = l.findIdx q := by
  induction l with
  | nil => rfl
  | cons x xs ih =>
    by_cases hx : p x
    · rw [updateFirst_cons, if_pos hx]
      rw [List.findIdx_cons, List.findIdx_cons, hq]
    · rw [updateFirst_cons, if_neg hx]
      rw [List.findIdx_cons, List.findIdx_cons, ih]

/-! ## C2 fixtures: a reachable three-step session, completed through step 2,
then re-editing step 1. -/

def stepU1 : ThinkingStep :=
  { id := "step-1", content := "a", order := 1, isComplete := false, notes := none }

def stepU2 : ThinkingStep :=
  { id := "step-2", content := "b", order := 2, isComplete := false, notes := none }

def stepU3 : ThinkingStep :=
  { id := "step-3", content := "c", order := 3, isComplete := false, notes := none }

def tplC2 : ThinkingTemplate :=
  { id := "template-1", name := "T3", category := "analysis", description := "d",
    steps := [stepU1, stepU2, stepU3], createdAt := 0, lastUsed := none,
    usageCount := 0, isBuiltIn := false }

def stC2 : TemplateManagerState :=
  { templates := [("template-1", tplC2)], sessions := [],
    currentSessionId := none, stepCounter := 3, sessionCounter := 0,
    templateCounter := 1 }

def stC2a : TemplateManagerState :=
  match stC2.createSession 1 "template-1" with
  | .ok x => x.2
  | .error _ => stC2

def stC2b : TemplateManagerState :=
  match stC2a.updateStep 2 "session-1" "step-1" "done1" with
  | .ok x => x.2
  | .error _ => stC2a

def stC2c : TemplateManagerState :=
  match stC2b.updateStep 3 "session-1" "step-2" "done2" with
  | .ok x => x.2
  | .error _ => stC2b

def stC2d : TemplateManagerState :=
  match stC2c.updateStep 4 "session-1" "step-1" "edit1" with
  | .ok x => x.2
  | .error _ => stC2c

/-- C2 fails as stated: in a reachable session whose first two steps are
complete and whose cursor sits at index 2, re-editing step 1 (already
complete, not final, strictly before the cursor) moves the cursor backward
to 1 instead of leaving it at 2. -/
theorem claim_C2_counterexample :
    ((stC2c.getSession "session-1").map (·.currentStepIndex) = some 2) ∧
    ((stC2c.getSession "session-1").map (fun s => s.steps.map (·.isComplete)) =
      some [true, true, false]) ∧
    ((stC2d.getSession "session-1").map (·.currentStepIndex) = some 1) ∧
    (1 : Nat) < 2 :=
  ⟨rfl, rfl, rfl, by decide⟩

/-- C2 amended: for a non-final step, `updateStep` always sets
`currentStepIndex` to the edited step's position + 1, regardless of where the
cursor was — so re-editing an earlier step whose position + 1 is below the
current cursor moves the cursor backward to that position + 1; only editing
the final step leaves the cursor where it was. -/
theorem claim_C2 :
    ∀ (st : TemplateManagerState) (now : Nat)
      (sessionId stepId content : String) (sess : TemplateSession)
      (step : ThinkingStep) (st' : TemplateManagerState)
      (sess' : TemplateSession),
    st.getSession sessionId = some sess →
    st.updateStep now sessionId stepId content = .ok (step, st') →
    st'.getSession sessionId = some sess' →
    sess'.currentStepIndex =
      (if sess.steps.findIdx (fun s => s.id == stepId) < sess.steps.length - 1
       then sess.steps.findIdx (fun s => s.id == stepId) + 1
       else sess.currentStepIndex) := by
  intro st now sessionId stepId content sess step st' sess' h hupd hc'
  cases hs : sess.steps.find? (fun s => s.id == stepId) with
  | none =>
    unfold TemplateManagerState.updateStep at hupd
    rw [h] at hupd
    simp only [] at hupd
    rw [hs] at hupd
    simp at hupd
  | some s =>
    rw [updateStep_eq st now sessionId stepId content sess s h hs] at hupd
    simp only [Except.ok.injEq, Prod.mk.injEq] at hupd
    obtain ⟨hstep, hst'⟩ := hupd
    subst hst'
    unfold TemplateManagerState.getSession at h hc'
    rw [find?_map_updateFirst_assoc sessionId sess
      (sessionAfterUpdate sess stepId content now) st.sessions h] at hc'
    simp only [Option.some.injEq] at hc'
    subst hc'
    simp only [sessionAfterUpdate]
    have hidx : (updateFirst (fun s => s.id == stepId)
        (applyTemplateStepUpdate content) sess.steps).findIdx
        (fun s => s.id == stepId) =
        sess.steps.findIdx (fun s => s.id == stepId) :=
      findIdx_updateFirst (fun s => s.id == stepId) (fun s => s.id == stepId)
        (applyTemplateStepUpdate content) (fun a => rfl) sess.steps
    have hlen : (updateFirst (fun s => s.id == stepId)
        (applyTemplateStepUpdate content) sess.steps).length =
        sess.steps.length :=
      length_updateFirst _ _ sess.steps
    rw [hidx, hlen]
    by_cases hcond : sess.steps.findIdx (fun s => s.id == stepId) <
        sess.steps.length - 1
    · rw [if_pos hcond, if_pos hcond]
    · rw [if_neg hcond, if_neg hcond]

def sessC2c : TemplateSession :=
  match stC2c.getSession "session-1" with
  | some s => s
  | none =>
    { id := "", templateId := "", currentStepIndex := 0, steps := [],
      startTime := 0, endTime := none }

def sessC2d : TemplateSession :=
  match stC2d.getSession "session-1" with
  | some s => s
  | none =>
    { id := "", templateId := "", currentStepIndex := 0, steps := [],
      startTime := 0, endTime := none }

theorem claim_C2_witness :
    sessC2d.currentStepIndex =
      (if sessC2c.steps.findIdx (fun s => s.id == "step-1") <
          sessC2c.steps.length - 1
       then sessC2c.steps.findIdx (fun s => s.id == "step-1") + 1
       else sessC2c.currentStepIndex) :=
  claim_C2 stC2c 4 "session-1" "step-1" "edit1" sessC2c
    (applyTemplateStepUpdate "edit1" (applyTemplateStepUpdate "done1" stepU1))
    stC2d sessC2d rfl rfl rfl

/-! ## C5: completing a fresh session's steps in order.  `planFor fc ft ids j`
is the list of updateStep requests for the step ids `ids`, where the i-th
request (counting from j) carries content `fc i` and is issued at time
`ft i`. -/

def planFor (fc : Nat → String) (ft : Nat → Nat) :
    List String → Nat → List (String × String × Nat)
  | [], _ => []
  | sid :: rest, j => (sid, fc j, ft j) :: planFor fc ft rest (j + 1)

/-- Issues the listed updateStep requests in order, stopping at the first
error. -/
def runUpdates (st : TemplateManagerState) (sessionId : String) :
    List (String × String × Nat) → Except String TemplateManagerState
  | [] => .ok st
  | (stepId, content, now) :: rest =>
    match st.updateStep now sessionId stepId content with
    | .error e => .error e
    | .ok x => runUpdates x.2 sessionId rest

/-- The session as stored after running a request plan. -/
def sessionAfterRun (st : TemplateManagerState) (sessionId : String)
    (plan : List (String × String × Nat)) : Option TemplateSession :=
  match runUpdates st sessionId plan with
  | .error _ => none
  | .ok stk => stk.getSession sessionId

theorem runUpdates_append (st : TemplateManagerState) (sessionId : String)
    (l₁ l₂ : List (String × String × Nat)) :
    runUpdates st sessionId (l₁ ++ l₂) =
      (match runUpdates st sessionId l₁ with
        | .error e => .error e
        | .ok st' => runUpdates st' sessionId l₂) := by
  induction l₁ generalizing st with
  | nil => rfl
  | cons x rest ih =>
    obtain ⟨stepId, content, now⟩ := x
    rw [List.cons_append]
    show (match st.updateStep now sessionId stepId content with
        | Except.error e => (Except.error e : Except String TemplateManagerState)
        | Except.ok y => runUpdates y.2 sessionId (rest ++ l₂)) =
      (match (match st.updateStep now sessionId stepId content with
          | Except.error e => (Except.error e : Except String TemplateManagerState)
          | Except.ok y => runUpdates y.2 sessionId rest) with
        | Except.error e => Except.error e
        | Except.ok st' => runUpdates st' sessionId l₂)
    cases st.updateStep now sessionId stepId content with
    | error e => rfl
    | ok y => exact ih y.2

theorem planFor_append (fc : Nat → String) (ft : Nat → Nat)
    (l₁ l₂ : List String) (j : Nat) :
    planFor fc ft (l₁ ++ l₂) j =
      planFor fc ft l₁ j ++ planFor fc ft l₂ (j + l₁.length) := by
  induction l₁ generalizing j with
  | nil => simp [planFor]
  | cons x rest ih =>
    show (x, fc j, ft j) :: planFor fc ft (rest ++ l₂) (j + 1) =
      (x, fc j, ft j) :: (planFor fc ft rest (j + 1) ++
        planFor fc ft l₂ (j + (rest.length + 1)))
    rw [ih (j + 1)]
    have harg : j + 1 + rest.length = j + (rest.length + 1) := by omega
    rw [harg]

theorem sessionAfterUpdate_steps (sess : TemplateSession)
    (stepId content : String) (now : Nat) :
    (sessionAfterUpdate sess stepId content now).steps =
      updateFirst (fun s => s.id == stepId)
        (applyTemplateStepUpdate content) sess.steps := by
  simp only [sessionAfterUpdate]
  split <;> rfl

theorem findIdx_get_of_nodup (g : α → String) (l : List α) (x : String)
    (k : Nat) (hk : k < l.length) (hnd : (l.map g).Nodup)
    (hx : g (l.get ⟨k, hk⟩) = x) :
    l.findIdx (fun s => g s == x) = k := by
  induction l generalizing k with
  | nil => simp at hk
  | cons a tl ih =>
    cases k with
    | zero =>
      simp only [List.get] at hx
      rw [List.findIdx_cons]
      simp [hx]
    | succ j =>
      have hj : j < tl.length := by simpa using hk
      have hxtl : g (tl.get ⟨j, hj⟩) = x := by
        simpa [List.get_cons_succ] using hx
      have hnd2 : (g a :: tl.map g).Nodup := by simpa using hnd
      have hcons := List.nodup_cons.mp hnd2
      have hna : (g a == x) = false := by
        simp only [beq_eq_false_iff_ne, ne_eq]
        intro hax
        have hmem : x ∈ tl.map g := by
          rw [← hxtl]
          exact List.mem_map.mpr ⟨tl.get ⟨j, hj⟩, List.get_mem tl j hj, rfl⟩
        exact hcons.1 (hax ▸ hmem)
      rw [List.findIdx_cons, hna]
      simp only [cond_false]
      rw [ih j hj hcons.2 hxtl]

theorem findIdx_getElem?_of_nodup (g : α → String) (x : String) :
    ∀ (l : List α) (k : Nat), (l.map g).Nodup → (l.map g)[k]? = some x →
      l.findIdx (fun s => g s == x) = k := by
  intro l
  induction l with
  | nil =>
    intro k hnd hx
    simp at hx
  | cons a tl ih =>
    intro k hnd hx
    cases k with
    | zero =>
      have hax : g a = x := by simpa using hx
      rw [List.findIdx_cons]
      simp [hax]
    | succ j =>
      have hxtl : (tl.map g)[j]? = some x := by simpa using hx
      have hnd2 : (g a :: tl.map g).Nodup := by simpa using hnd
      have hcons := List.nodup_cons.mp hnd2
      have hna : (g a == x) = false := by
        simp only [beq_eq_false_iff_ne, ne_eq]
        intro hax
        exact hcons.1 (hax ▸ List.getElem?_mem hxtl)
      rw [List.findIdx_cons, hna]
      simp only [cond_false]
      rw [ih j hcons.2 hxtl]

theorem updateStep_at_position (st : TemplateManagerState) (now : Nat)
    (sessionId stepId content : String) (sess : TemplateSession) (k : Nat)
    (h : st.getSession sessionId = some sess)
    (hnd : (sess.steps.map (·.id)).Nodup)
    (hid : (sess.steps.map (·.id))[k]? = some stepId) :
    ∃ step st',
      st.updateStep now sessionId stepId content = .ok (step, st') ∧
      st'.getSession sessionId =
        some (sessionAfterUpdate sess stepId content now) ∧
      (sessionAfterUpdate sess stepId content now).steps.map (·.id) =
        sess.steps.map (·.id) ∧
      (sessionAfterUpdate sess stepId content now).currentStepIndex =
        (if k < sess.steps.length - 1 then k + 1 else sess.currentStepIndex) ∧
      (sessionAfterUpdate sess stepId content now).endTime =
        (if k < sess.steps.length - 1 then sess.endTime else some now) := by
  have hstep? : ∃ s, sess.steps[k]? = some s ∧ s.id = stepId := by
    rw [List.getElem?_map] at hid
    cases hs : sess.steps[k]? with
    | none => rw [hs] at hid; simp at hid
    | some s =>
      rw [hs] at hid
      simp at hid
      exact ⟨s, rfl, hid⟩
  obtain ⟨s0, hs0, hs0id⟩ := hstep?
  have hmem : s0 ∈ sess.steps := List.getElem?_mem hs0
  have hsome : (sess.steps.find? (fun s => s.id == stepId)).isSome :=
    List.find?_isSome.mpr ⟨s0, hmem, by simp [hs0id]⟩
  have hidx0 : sess.steps.findIdx (fun s => s.id == stepId) = k :=
    findIdx_getElem?_of_nodup (fun s => s.id) stepId sess.steps k hnd hid
  cases hs : sess.steps.find? (fun s => s.id == stepId) with
  | none => rw [hs] at hsome; simp at hsome
  | some s =>
    refine ⟨applyTemplateStepUpdate content s, _,
      updateStep_eq st now sessionId stepId content sess s h hs, ?_, ?_, ?_, ?_⟩
    · unfold TemplateManagerState.getSession at h ⊢
      exact find?_map_updateFirst_assoc sessionId sess _ st.sessions h
    · rw [sessionAfterUpdate_steps]
      exact updateFirst_map_of_preserve (fun s => s.id == stepId)
        (applyTemplateStepUpdate content) (fun s => s.id) (fun a => rfl) sess.steps
    · have hidx : (updateFirst (fun s => s.id == stepId)
          (applyTemplateStepUpdate content) sess.steps).findIdx
          (fun s => s.id == stepId) = k := by
        rw [findIdx_updateFirst (fun s => s.id == stepId)
          (fun s => s.id == stepId) (applyTemplateStepUpdate content)
          (fun a => rfl) sess.steps]
        exact hidx0
      have hlen := length_updateFirst (fun s : ThinkingStep => s.id == stepId)
        (applyTemplateStepUpdate content) sess.steps
      simp only [sessionAfterUpdate]
      rw [hidx, hlen]
      by_cases hcond : k < sess.steps.length - 1
      · rw [if_pos hcond, if_pos hcond]
      · rw [if_neg hcond, if_neg hcond]
    · have hidx : (updateFirst (fun s => s.id == stepId)
          (applyTemplateStepUpdate content) sess.steps).findIdx
          (fun s => s.id == stepId) = k := by
        rw [findIdx_updateFirst (fun s => s.id == stepId)
          (fun s => s.id == stepId) (applyTemplateStepUpdate content)
          (fun a => rfl) sess.steps]
        exact hidx0
      have hlen := length_updateFirst (fun s : ThinkingStep => s.id == stepId)
        (applyTemplateStepUpdate content) sess.steps
      simp only [sessionAfterUpdate]
      rw [hidx, hlen]
      by_cases hcond : k < sess.steps.length - 1
      · rw [if_pos hcond, if_pos hcond]
      · rw [if_neg hcond, if_neg hcond]

theorem runUpdates_take_char (st1 : TemplateManagerState) (sessionId : String)
    (ids : List String) (fc : Nat → String) (ft : Nat → Nat)
    (sess0 : TemplateSession)
    (h0 : st1.getSession sessionId = some sess0)
    (hids : sess0.steps.map (·.id) = ids)
    (hnd : ids.Nodup)
    (hcur : sess0.currentStepIndex = 0)
    (hend : sess0.endTime = none)
    (hN : 1 ≤ ids.length) :
    ∀ k, k ≤ ids.length →
      ∃ stk sessk,
        runUpdates st1 sessionId (planFor fc ft (ids.take k) 0) = .ok stk ∧
        stk.getSession sessionId = some sessk ∧
        sessk.steps.map (·.id) = ids ∧
        sessk.currentStepIndex =
          (if k = ids.length then ids.length - 1 else k) ∧
        sessk.endTime =
          (if k = ids.length then some (ft (ids.length - 1)) else none) := by
  intro k
  induction k with
  | zero =>
    intro _
    refine ⟨st1, sess0, ?_, h0, hids, ?_, ?_⟩
    · simp [planFor, runUpdates]
    · have hne : ¬ (0 = ids.length) := by omega
      rw [if_neg hne, hcur]
    · have hne : ¬ (0 = ids.length) := by omega
      rw [if_neg hne, hend]
  | succ k ih =>
    intro hk1
    have hkN : k < ids.length := by omega
    obtain ⟨stk, sessk, hrun, hget, hmap, hcurk, hendk⟩ := ih (by omega)
    have hlensteps : sessk.steps.length = ids.length := by
      have := congrArg List.length hmap
      simpa using this
    obtain ⟨idk, hidk⟩ : ∃ x, ids[k]? = some x :=
      ⟨_, List.getElem?_eq_some.mpr ⟨hkN, rfl⟩⟩
    have htake : ids.take (k + 1) = ids.take k ++ [idk] := by
      rw [List.take_succ, hidk]
      rfl
    have hlentake : (ids.take k).length = k := by
      simp only [List.length_take]
      omega
    have hplan : planFor fc ft (ids.take (k + 1)) 0 =
        planFor fc ft (ids.take k) 0 ++ [(idk, fc k, ft k)] := by
      rw [htake, planFor_append, hlentake]
      simp [planFor, Nat.zero_add]
    have hmapk : (sessk.steps.map (·.id))[k]? = some idk := by
      rw [hmap]
      exact hidk
    have hndm : (sessk.steps.map (·.id)).Nodup := by
      rw [hmap]
      exact hnd
    obtain ⟨stepx, st', hupd, hget', hmap', hcur', hend'⟩ :=
      updateStep_at_position stk (ft k) sessionId idk (fc k) sessk k hget hndm hmapk
    refine ⟨st', sessionAfterUpdate sessk idk (fc k) (ft k), ?_, hget', ?_, ?_, ?_⟩
    · rw [hplan, runUpdates_append, hrun]
      show runUpdates stk sessionId [(idk, fc k, ft k)] = .ok st'
      unfold runUpdates
      rw [hupd]
      rfl
    · rw [hmap', hmap]
    · rw [hcur', hlensteps]
      by_cases hc : k < ids.length - 1
      · rw [if_pos hc]
        have hne : ¬ (k + 1 = ids.length) := by omega
        rw [if_neg hne]
      · rw [if_neg hc, hcurk]
        have heq : k + 1 = ids.length := by omega
        have hne : ¬ (k = ids.length) := by omega
        rw [if_pos heq, if_neg hne]
        omega
    · rw [hend', hlensteps]
      by_cases hc : k < ids.length - 1
      · rw [if_pos hc, hendk]
        have hne1 : ¬ (k = ids.length) := by omega
        have hne2 : ¬ (k + 1 = ids.length) := by omega
        rw [if_neg hne1, if_neg hne2]
      · have heq : k + 1 = ids.length := by omega
        rw [if_neg hc, if_pos heq]
        have hkk : k = ids.length - 1 := by omega
        rw [hkk]

/-- C5: completing a fresh N-step session's steps in order via `updateStep`
advances `currentStepIndex` by exactly 1 after each of the first N-1
completions (the cursor equals k after k completions), leaves the cursor at
the last index after the N-th, and sets `endTime` exactly once: it is unset
after each of the first N-1 completions and carries the N-th call's time
afterwards. -/
theorem claim_C5 :
    ∀ (st : TemplateManagerState) (now0 : Nat) (templateId : String)
      (t : ThinkingTemplate) (sess : TemplateSession)
      (st1 : TemplateManagerState) (fc : Nat → String) (ft : Nat → Nat),
    st.getTemplateById templateId = some t →
    (t.steps.map (·.id)).Nodup →
    t.steps ≠ [] →
    st.createSession now0 templateId = .ok (sess, st1) →
    ∀ k, k ≤ t.steps.length →
      (sessionAfterRun st1 sess.id
          (planFor fc ft ((t.steps.map (·.id)).take k) 0)).map
          (fun s => (s.currentStepIndex, s.endTime)) =
        some ((if k = t.steps.length then t.steps.length - 1 else k),
          (if k = t.steps.length then some (ft (t.steps.length - 1)) else none)) := by
  intro st now0 templateId t sess st1 fc ft h hnd hne hcs k hk
  rw [createSession_eq st now0 templateId t h] at hcs
  simp only [Except.ok.injEq, Prod.mk.injEq] at hcs
  obtain ⟨hsess, hst1⟩ := hcs
  subst hst1
  subst hsess
  have hget : ({ st with
      templates := (updateFirst (fun kv => kv.1 == templateId) (fun kv => (kv.1, { t with usageCount := t.usageCount + 1, lastUsed := some now0 })) st.templates)
      sessions := (mapSet ("session-" ++ toString (st.sessionCounter + 1)) { id := "session-" ++ toString (st.sessionCounter + 1), templateId := templateId, currentStepIndex := 0, steps := t.steps, startTime := now0, endTime := none } st.sessions)
      currentSessionId := some ("session-" ++ toString (st.sessionCounter + 1))
      sessionCounter := st.sessionCounter + 1 } : TemplateManagerState).getSession
      ("session-" ++ toString (st.sessionCounter + 1)) =
      some { id := "session-" ++ toString (st.sessionCounter + 1),
             templateId := templateId, currentStepIndex := 0,
             steps := t.steps, startTime := now0, endTime := none } := by
    unfold TemplateManagerState.getSession
    exact find?_map_mapSet _ _ _
  obtain ⟨stk, sessk, hrun, hgetk, hmapk, hcurk, hendk⟩ :=
    runUpdates_take_char _ _ (t.steps.map (·.id)) fc ft _ hget rfl hnd rfl rfl
      (by simpa using List.length_pos.mpr hne) k (by simpa using hk)
  unfold sessionAfterRun
  rw [hrun]
  dsimp only
  rw [hgetk]
  simp only [Option.map_some']
  rw [hcurk, hendk]
  simp

def sessC5 : TemplateSession :=
  match stC2.createSession 1 "template-1" with
  | .ok x => x.1
  | .error _ =>
    { id := "", templateId := "", currentStepIndex := 0, steps := [],
      startTime := 0, endTime := none }

theorem claim_C5_witness :
    (sessionAfterRun stC2a sessC5.id
        (planFor (fun _ => "w") (fun j => 10 + j)
          ((tplC2.steps.map (·.id)).take 3) 0)).map
        (fun s => (s.currentStepIndex, s.endTime)) =
      some ((if 3 = tplC2.steps.length then tplC2.steps.length - 1 else 3),
        (if 3 = tplC2.steps.length then
          some ((fun j => 10 + j) (tplC2.steps.length - 1)) else none)) :=
  claim_C5 stC2 1 "template-1" tplC2 sessC5 stC2a (fun _ => "w")
    (fun j => 10 + j) rfl (by decide) (by decide) rfl 3 (by decide)

/-! ## Template recommender context analysis
(src/tools/template-thinking/intelligence/templateRecommender.ts, part_002
lines 45-385).  The JS regex engine is external: `rtest` abstracts
`RegExp.test`, applied to the pattern source text and the input.  String
`includes` is modelled concretely as substring containment. -/

inductive TemplateCategory where
  | analysis
  | planning
  | debugging
  | decision
  | research
  | verification
  | custom
deriving DecidableEq, Repr

def categoryKeywords : TemplateCategory → List String
  | .analysis => ["analyze", "examine", "study", "investigate", "assess",
      "evaluate", "understand", "break down", "review", "compare", "contrast",
      "identify", "patterns", "interpret", "correlate"]
  | .planning => ["plan", "implement", "strategy", "roadmap", "timeline",
      "schedule", "organize", "prepare", "develop", "outline", "milestones",
      "resources", "dependencies", "budget", "allocate"]
  | .debugging => ["debug", "fix", "issue", "problem", "error", "bug",
      "troubleshoot", "diagnose", "resolve", "failure", "crash", "exception",
      "defect", "unexpected", "regression", "symptoms"]
  | .decision => ["decide", "choice", "option", "select", "determine",
      "choose", "consider", "weigh", "compare", "trade-off", "pros", "cons",
      "alternatives", "criteria", "priority", "preference"]
  | .research => ["research", "investigate", "explore", "discover", "study",
      "literature", "background", "information", "data", "survey", "findings",
      "sources", "evidence", "gaps", "synthesis"]
  | .verification => ["verify", "validate", "check", "confirm", "prove",
      "test", "ensure", "correct", "accurate", "true", "valid", "reliable",
      "consistent", "double-check", "assertions"]
  | .custom => []

/-- `Object.entries(categoryKeywords)` iteration order: declaration order. -/
def allCategories : List TemplateCategory :=
  [.analysis, .planning, .debugging, .decision, .research, .verification,
   .custom]

structure ContextPattern where
  pattern : String
  category : TemplateCategory
  weight : ℚ
  description : String
deriving DecidableEq, Repr

def contextPatterns : List ContextPattern :=
  [{ pattern := "(\\b|^)(not working|fails|broken|doesn\x27t work|won\x27t compile|doesn\x27t run)(\\b|$)",
     category := .debugging, weight := 3,
     description := "Identified a non-functioning component that needs troubleshooting" },
   { pattern := "(\\b|^)(error|exception|crash|bug)(\\b|$)",
     category := .debugging, weight := 3,
     description := "Found references to software errors or exceptions" },
   { pattern := "(\\b|^)(need to (implement|build|create|develop)|how (can|should) (I|we) (implement|build))(\\b|$)",
     category := .planning, weight := 3,
     description := "Detected implementation planning needs" },
   { pattern := "(\\b|^)(timeline|roadmap|milestone|project plan)(\\b|$)",
     category := .planning, weight := 2.5,
     description := "Found references to project planning elements" },
   { pattern := "(\\b|^)(which (one|option)|should I choose|deciding between|better (choice|option))(\\b|$)",
     category := .decision, weight := 3,
     description := "Identified a decision-making scenario" },
   { pattern := "(\\b|^)(pros and cons|advantages|disadvantages|benefits|drawbacks)(\\b|$)",
     category := .decision, weight := 2.5,
     description := "Found evaluation of alternatives" },
   { pattern := "(\\b|^)(analyze|understand why|what causes|how does|evaluate|assessment)(\\b|$)",
     category := .analysis, weight := 3,
     description := "Detected analytical needs" },
   { pattern := "(\\b|^)(pattern|trend|correlation|relationship between|impact of)(\\b|$)",
     category := .analysis, weight := 2.5,
     description := "Found references to relationship analysis" },
   { pattern := "(\\b|^)(research|study|learn about|find out|information on|look into)(\\b|$)",
     category := .research, weight := 3,
     description := "Identified research needs" },
   { pattern := "(\\b|^)(literature|sources|references|papers|background information)(\\b|$)",
     category := .research, weight := 2.5,
     description := "Found references to research materials" },
   { pattern := "(\\b|^)(verify|confirm|validate|is it true|check if|test whether)(\\b|$)",
     category := .verification, weight := 3,
     description := "Detected verification needs" },
   { pattern := "(\\b|^)(accuracy|correctness|validity|reliable|true or false)(\\b|$)",
     category := .verification, weight := 2.5,
     description := "Found references to accuracy verification" }]

def isPrefixSeq [BEq α] : List α → List α → Bool
  | [], _ => true
  | _ :: _, [] => false
  | a :: as, b :: bs => a == b && isPrefixSeq as bs

def containsSeq [BEq α] (sub : List α) : List α → Bool
  | [] => sub.isEmpty
  | a :: rest => isPrefixSeq sub (a :: rest) || containsSeq sub rest

/-- JS `String.prototype.includes`: substring containment. -/
def strIncludes (s sub : String) : Bool :=
  containsSeq sub.toList s.toList

structure KeywordMatch where
  category : TemplateCategory
  score : ℚ
deriving DecidableEq, Repr

/-- Keyword scoring of `identifyCategory`: a word-boundary regex match scores
1.5, a plain substring match 0.7. -/
def keywordScoreFor (rtest : String → String → Bool) (desc : String)
    (keywords : List String) : ℚ :=
  keywords.foldl (fun total keyword =>
    if rtest ("\\b" ++ keyword ++ "\\b") desc then total + 1.5
    else if strIncludes desc keyword then total + 0.7
    else total) 0

def keywordScores (rtest : String → String → Bool) (desc : String) :
    List KeywordMatch :=
  allCategories.map (fun c =>
    { category := c, score := keywordScoreFor rtest desc (categoryKeywords c) })

/-- The accumulator step shared by the pattern-score reduce and the combine
loop: add the weight to the category's entry, or push a new entry. -/
def addPatternScore (acc : List KeywordMatch) (p : KeywordMatch) :
    List KeywordMatch :=
  if acc.any (fun s => s.category == p.category) then
    updateFirst (fun s => s.category == p.category)
      (fun s => { s with score := s.score + p.score }) acc
  else acc ++ [p]

def patternScores (rtest : String → String → Bool) (desc : String) :
    List KeywordMatch :=
  ((contextPatterns.filter (fun p => rtest p.pattern desc)).map
    (fun p => ({ category := p.category, score := p.weight } : KeywordMatch))).foldl
    addPatternScore []

/-- JS stable `Array.sort` with comparator `(a, b) => b.score - a.score`,
modelled as a stable insertion sort in descending score order. -/
def insertByScore (x : KeywordMatch) : List KeywordMatch → List KeywordMatch
  | [] => [x]
  | y :: ys => if y.score ≥ x.score then y :: insertByScore x ys else x :: y :: ys

def sortByScoreDesc (l : List KeywordMatch) : List KeywordMatch :=
  l.foldl (fun sorted x => insertByScore x sorted) []

/-- `identifyCategory` of templateRecommender.ts (part_002 lines 285-343). -/
def identifyCategory (rtest : String → String → Bool)
    (description : String) : TemplateCategory :=
  let normalizedDesc := description.toLower
  let kws := keywordScores rtest normalizedDesc
  let ps := patternScores rtest normalizedDesc
  let combined := ps.foldl addPatternScore kws
  let sorted := sortByScoreDesc combined
  match sorted with
  | [] => .analysis
  | top :: _ => if top.score > 0 then top.category else .analysis

structure ContextAnalysis where
  category : TemplateCategory
  matchedPatterns : List (String × ℚ × String)
  keywordMatches : List String
  confidence : ℚ
deriving DecidableEq, Repr

/-- `analyzeContext` of templateRecommender.ts (part_002 lines 350-385). -/
def analyzeContext (rtest : String → String → Bool)
    (description : String) : ContextAnalysis :=
  let normalizedDesc := description.toLower
  let category := identifyCategory rtest normalizedDesc
  let matchedPatterns := (contextPatterns.filter
    (fun p => rtest p.pattern normalizedDesc)).map
    (fun p => (p.pattern, p.weight, p.description))
  let keywordMatches := (categoryKeywords category).filter
    (fun keyword => strIncludes normalizedDesc keyword)
  let patternScore := matchedPatterns.foldl (fun sum p => sum + p.2.1) 0
  let keywordScore : ℚ := keywordMatches.length
  let confidence := min 0.95 (patternScore * 0.1 + keywordScore * 0.05)
  { category := category
    matchedPatterns := matchedPatterns
    keywordMatches := keywordMatches
    confidence := if confidence > 0 then confidence else 0.3 }

theorem foldl_keyword_acc (rtest : String → String → Bool) (d : String) :
    ∀ (kws : List String) (acc : ℚ),
      (∀ kw ∈ kws, strIncludes d kw = false ∧
        rtest ("\\b" ++ kw ++ "\\b") d = false) →
      kws.foldl (fun total keyword =>
        if rtest ("\\b" ++ keyword ++ "\\b") d then total + 1.5
        else if strIncludes d keyword then total + 0.7
        else total) acc = acc := by
  intro kws
  induction kws with
  | nil =>
    intro acc h
    rfl
  | cons a tl ih =>
    intro acc h
    have ha := h a (List.mem_cons_self a tl)
    simp only [List.foldl_cons, ha.1, ha.2, Bool.false_eq_true, if_false]
    exact ih acc (fun kw hk => h kw (List.mem_cons_of_mem a hk))

theorem keywordScoreFor_zero (rtest : String → String → Bool) (d : String)
    (kws : List String)
    (h : ∀ kw ∈ kws, strIncludes d kw = false ∧
      rtest ("\\b" ++ kw ++ "\\b") d = false) :
    keywordScoreFor rtest d kws = 0 := by
  unfold keywordScoreFor
  exact foldl_keyword_acc rtest d kws 0 h

theorem insertByScore_allzero (x : KeywordMatch) (l : List KeywordMatch)
    (hx : x.score = 0) (hl : ∀ y ∈ l, y.score = 0) :
    insertByScore x l = l ++ [x] := by
  induction l with
  | nil => rfl
  | cons y ys ih =>
    have hy : y.score = 0 := hl y (List.mem_cons_self y ys)
    have hge : y.score ≥ x.score := by rw [hx, hy]
    rw [insertByScore, if_pos hge,
      ih (fun z hz => hl z (List.mem_cons_of_mem y hz))]
    rfl

theorem foldl_insert_allzero :
    ∀ (l acc : List KeywordMatch), (∀ y ∈ acc, y.score = 0) →
      (∀ y ∈ l, y.score = 0) →
      l.foldl (fun sorted x => insertByScore x sorted) acc = acc ++ l := by
  intro l
  induction l with
  | nil =>
    intro acc _ _
    simp
  | cons x xs ih =>
    intro acc hacc hl
    have hx : x.score = 0 := hl x (List.mem_cons_self x xs)
    simp only [List.foldl_cons]
    rw [insertByScore_allzero x acc hx hacc]
    rw [ih (acc ++ [x]) ?hacc1 (fun y hy => hl y (List.mem_cons_of_mem x hy))]
    · simp
    case hacc1 =>
      intro y hy
      rcases List.mem_append.mp hy with h1 | h1
      · exact hacc y h1
      · simp only [List.mem_singleton] at h1
        rw [h1, hx]

theorem sortByScoreDesc_allzero (l : List KeywordMatch)
    (hl : ∀ y ∈ l, y.score = 0) : sortByScoreDesc l = l := by
  unfold sortByScoreDesc
  rw [foldl_insert_allzero l [] (by simp) hl]
  rfl

theorem identifyCategory_nomatch (rtest : String → String → Bool) (d : String)
    (hp : ∀ p ∈ contextPatterns, rtest p.pattern d.toLower = false)
    (hk : ∀ c ∈ allCategories, ∀ kw ∈ categoryKeywords c,
      strIncludes d.toLower kw = false ∧
      rtest ("\\b" ++ kw ++ "\\b") d.toLower = false) :
    identifyCategory rtest d = .analysis := by
  simp only [identifyCategory]
  have hps : patternScores rtest d.toLower = [] := by
    unfold patternScores
    have hf : contextPatterns.filter (fun p => rtest p.pattern d.toLower) = [] :=
      List.filter_eq_nil_iff.mpr (fun p hpmem => by simp [hp p hpmem])
    rw [hf]
    rfl
  rw [hps]
  simp only [List.foldl_nil]
  have hzero : ∀ y ∈ keywordScores rtest d.toLower, y.score = 0 := by
    intro y hy
    obtain ⟨c, hc, hceq⟩ := List.mem_map.mp hy
    rw [← hceq]
    exact keywordScoreFor_zero rtest d.toLower (categoryKeywords c) (hk c hc)
  rw [sortByScoreDesc_allzero _ hzero]
  have hana : TemplateCategory.analysis ∈ allCategories := by
    simp [allCategories]
  have hz : keywordScoreFor rtest d.toLower
      (categoryKeywords TemplateCategory.analysis) = 0 :=
    keywordScoreFor_zero rtest d.toLower _ (hk _ hana)
  show (match keywordScores rtest d.toLower with
    | [] => TemplateCategory.analysis
    | top :: _ => if top.score > 0 then top.category
      else TemplateCategory.analysis) = TemplateCategory.analysis
  simp only [keywordScores, allCategories, List.map]
  rw [hz]
  simp

/-- C8: the context analysis always reports a confidence of at most 0.95; and
for a description matching no category keyword and no context pattern it
still returns a recommendation context defaulting to category analysis with
confidence exactly the 0.3 floor. -/
theorem claim_C8 :
    (∀ (rtest : String → String → Bool) (description : String),
      (analyzeContext rtest description).confidence ≤ 0.95) ∧
    (∀ (rtest : String → String → Bool) (description : String),
      (∀ s ∈ [description.toLower, description.toLower.toLower],
        (∀ p ∈ contextPatterns, rtest p.pattern s = false) ∧
        (∀ c ∈ allCategories, ∀ kw ∈ categoryKeywords c,
          strIncludes s kw = false ∧
          rtest ("\\b" ++ kw ++ "\\b") s = false)) →
      (analyzeContext rtest description).category = TemplateCategory.analysis ∧
      (analyzeContext rtest description).confidence = 0.3) := by
  constructor
  · intro rtest description
    simp only [analyzeContext]
    by_cases hpos : (min (0.95:ℚ)
        (((contextPatterns.filter
            (fun p => rtest p.pattern description.toLower)).map
            (fun p => (p.pattern, p.weight, p.description))).foldl
            (fun sum p => sum + p.2.1) 0 * 0.1 +
          (((categoryKeywords (identifyCategory rtest description.toLower)).filter
            (fun keyword => strIncludes description.toLower keyword)).length : ℚ)
            * 0.05)) > 0
    · rw [if_pos hpos]
      exact min_le_left _ _
    · rw [if_neg hpos]
      norm_num
  · intro rtest description h
    have h1 := h description.toLower (by simp)
    have h2 := h description.toLower.toLower (by simp)
    have hcat : identifyCategory rtest description.toLower =
        TemplateCategory.analysis :=
      identifyCategory_nomatch rtest description.toLower h2.1 h2.2
    have hfilter : contextPatterns.filter
        (fun p => rtest p.pattern description.toLower) = [] :=
      List.filter_eq_nil_iff.mpr (fun p hpmem => by simp [h1.1 p hpmem])
    have hkwf : (categoryKeywords TemplateCategory.analysis).filter
        (fun keyword => strIncludes description.toLower keyword) = [] := by
      refine List.filter_eq_nil_iff.mpr (fun kw hkw => ?_)
      have := (h1.2 TemplateCategory.analysis (by simp [allCategories]) kw hkw).1
      simp [this]
    constructor
    · simp only [analyzeContext]
      rw [hcat]
    · simp only [analyzeContext]
      rw [hcat, hfilter, hkwf]
      norm_num

theorem emptyToLower : "".toLower = "" := by
  unfold String.toLower String.map
  rw [String.mapAux]
  rw [dif_pos (by rfl : String.atEnd "" 0 = true)]

theorem claim_C8_witness :
    (analyzeContext (fun _ _ => false) "no match here at all").confidence ≤ 0.95 ∧
    (analyzeContext (fun _ _ => false) "").category = TemplateCategory.analysis ∧
    (analyzeContext (fun _ _ => false) "").confidence = 0.3 :=
  ⟨claim_C8.1 (fun _ _ => false) "no match here at all",
   claim_C8.2 (fun _ _ => false) "" (by
     rw [emptyToLower, emptyToLower]
     decide)⟩
